import Mathlib

/- Verification development for the stars-trader bot (src/Stars.py).

   The ledger (SQLite table `transactions`), the NOWPayments IPN webhook
   handler `nowpayments_ipn`, and the fulfillment trigger
   `get_recipient_username` are embedded shallowly: bytes are naturals taken
   modulo 256, 64-bit words are naturals taken modulo 2 ^ 64, the table is a
   list of rows in insertion (rowid) order, and the side effects of each
   handler (database writes, driver invocation, chat replies) are recorded as
   an explicit event trace in program order. -/

set_option maxRecDepth 8000

namespace StarsTrader

/- ------------------------------------------------------------------ -/
/- SHA-512 and HMAC-SHA512, as used by `hmac.new(key, msg, hashlib.sha512)`
   in the webhook handler.  Words are naturals reduced modulo 2 ^ 64.
   The round constants and the initial hash value are derived, per FIPS
   180-4, from the fractional parts of the cube roots (resp. square roots)
   of the first eighty (resp. eight) primes, computed here by integer
   root extraction. -/

def w64 : Nat := 2 ^ 64

def rotr (n x : Nat) : Nat := ((x >>> n) ||| (x <<< (64 - n))) % w64

def bigSigma0 (x : Nat) : Nat := rotr 28 x ^^^ rotr 34 x ^^^ rotr 39 x

def bigSigma1 (x : Nat) : Nat := rotr 14 x ^^^ rotr 18 x ^^^ rotr 41 x

def smallSigma0 (x : Nat) : Nat := rotr 1 x ^^^ rotr 8 x ^^^ (x >>> 7)

def smallSigma1 (x : Nat) : Nat := rotr 19 x ^^^ rotr 61 x ^^^ (x >>> 6)

def chFn (x y z : Nat) : Nat := (x &&& y) ^^^ ((x ^^^ (w64 - 1)) &&& z)

def majFn (x y z : Nat) : Nat := (x &&& y) ^^^ (x &&& z) ^^^ (y &&& z)

def isSmallPrime (n : Nat) : Bool :=
  decide (2 ≤ n) && (List.range n).all (fun d => decide (d < 2 ∨ n % d ≠ 0))

def smallPrimes : List Nat := ((List.range 500).filter isSmallPrime).take 80

def bsearchAux (p : Nat → Bool) : Nat → Nat → Nat → Nat
  | 0, lo, _ => lo
  | Nat.succ fuel, lo, hi =>
    if hi ≤ lo + 1 then lo
    else if p ((lo + hi) / 2) then bsearchAux p fuel ((lo + hi) / 2) hi
    else bsearchAux p fuel lo ((lo + hi) / 2)

def introot (k n : Nat) : Nat := bsearchAux (fun r => decide (r ^ k ≤ n)) 300 0 (n + 1)

def sha512K : List Nat := smallPrimes.map (fun p => introot 3 (p <<< 192) % w64)

def sha512H0 : List Nat := (smallPrimes.take 8).map (fun p => introot 2 (p <<< 128) % w64)

def bytesToWord (bs : List Nat) : Nat := bs.foldl (fun a b => a * 256 + b % 256) 0

def padMessage (msg : List Nat) : List Nat :=
  let L := msg.length
  let zeros := (240 - ((L + 1) % 128)) % 128
  let lenBytes := (List.range 16).map (fun i => ((8 * L) >>> (8 * (15 - i))) % 256)
  msg ++ (128 :: List.replicate zeros 0) ++ lenBytes

def toBlocks (padded : List Nat) : List (List Nat) :=
  (List.range (padded.length / 128)).map (fun i => (padded.drop (128 * i)).take 128)

def messageSchedule (block : List Nat) : Array Nat :=
  let w0 : Array Nat := Array.mk ((List.range 16).map (fun i => bytesToWord ((block.drop (8 * i)).take 8)))
  (List.range 64).foldl
    (fun w t =>
      w.push ((smallSigma1 (w.getD (t + 14) 0) + w.getD (t + 9) 0 +
               smallSigma0 (w.getD (t + 1) 0) + w.getD t 0) % w64))
    w0

def sha512Round (w : Array Nat) (s : Array Nat) (t : Nat) : Array Nat :=
  let a := s.getD 0 0
  let b := s.getD 1 0
  let c := s.getD 2 0
  let d := s.getD 3 0
  let e := s.getD 4 0
  let f := s.getD 5 0
  let g := s.getD 6 0
  let h := s.getD 7 0
  let t1 := (h + bigSigma1 e + chFn e f g + sha512K.getD t 0 + w.getD t 0) % w64
  let t2 := (bigSigma0 a + majFn a b c) % w64
  #[(t1 + t2) % w64, a, b, c, (d + t1) % w64, e, f, g]

def sha512Compress (H : Array Nat) (block : List Nat) : Array Nat :=
  let w := messageSchedule block
  let s := (List.range 80).foldl (sha512Round w) H
  Array.mk ((List.range 8).map (fun i => (H.getD i 0 + s.getD i 0) % w64))

def sha512Bytes (msg : List Nat) : List Nat :=
  let final := (toBlocks (padMessage msg)).foldl sha512Compress (Array.mk sha512H0)
  final.toList.foldr (fun wd acc => (List.range 8).map (fun i => (wd >>> (8 * (7 - i))) % 256) ++ acc) []

def hexChar (n : Nat) : Char := if n < 10 then Char.ofNat (48 + n) else Char.ofNat (87 + n)

def bytesToHex (bs : List Nat) : String :=
  String.mk (bs.foldr (fun b acc => hexChar (b / 16) :: hexChar (b % 16) :: acc) [])

def hmacSha512Hex (key msg : List Nat) : String :=
  let k0 := if 128 < key.length then sha512Bytes key else key
  let k := k0 ++ List.replicate (128 - k0.length) 0
  let inner := sha512Bytes ((k.map (fun b => b % 256 ^^^ 54)) ++ msg)
  bytesToHex (sha512Bytes ((k.map (fun b => b % 256 ^^^ 92)) ++ inner))

def utf8EncodeCodepoint (n : Nat) : List Nat :=
  if n < 128 then [n]
  else if n < 2048 then [192 ||| (n >>> 6), 128 ||| (n &&& 63)]
  else if n < 65536 then [224 ||| (n >>> 12), 128 ||| ((n >>> 6) &&& 63), 128 ||| (n &&& 63)]
  else [240 ||| (n >>> 18), 128 ||| ((n >>> 12) &&& 63), 128 ||| ((n >>> 6) &&& 63), 128 ||| (n &&& 63)]

def utf8Bytes (s : String) : List Nat :=
  s.data.foldr (fun c acc => utf8EncodeCodepoint c.toNat ++ acc) []

/- FIPS 180-4 test vector: SHA-512 of the ASCII string "abc". -/
set_option maxHeartbeats 4000000 in
example : bytesToHex (sha512Bytes (utf8Bytes "abc")) =
    "ddaf35a193617abacc417349ae20413112e6fa4e89a97ea20a9eeee64b55d39a2192992a274fc1a836ba3c23a3feebbd454d4423643ce80e2a9ac94fa54ca49f" := by
  decide

/- FIPS 180-4 test vector: SHA-512 of the empty message, exercising the
   padding path where the message bytes are absent entirely. -/
set_option maxHeartbeats 4000000 in
example : bytesToHex (sha512Bytes []) =
    "cf83e1357eefb8bdf1542850d66d8007d620e4050b5715dc83f4a921d36ce9ce47d0d13c5d85f2b0ff8318d2877eec2f63b931bd47417a81a538327af927da3e" := by
  decide

/- ------------------------------------------------------------------ -/
/- Data model: the SQLite table `transactions` (setup_database), a list of
   rows in insertion (rowid) order.  `recipient_username` and `invoice_id`
   are nullable columns; `fulfilled_amount` has SQL default 0;
   `created_at` defaults to the insertion timestamp, modelled as a Nat
   passed in by the caller. -/

structure Transaction where
  order_id : String
  user_id : Nat
  recipient_username : Option String
  invoice_id : Option String
  buy_amount : Nat
  fulfilled_amount : Nat
  status : String
  created_at : Nat
deriving DecidableEq, Repr

abbrev Ledger := List Transaction

/- UPDATE transactions SET status = ? leaves every other column alone. -/
def setStatusField (t : Transaction) (s : String) : Transaction :=
  Transaction.mk t.order_id t.user_id t.recipient_username t.invoice_id
    t.buy_amount t.fulfilled_amount s t.created_at

/- UPDATE transactions SET recipient_username = ?, fulfilled_amount = ?, status = ?. -/
def setFulfillmentFields (t : Transaction) (username : String) (amount : Nat) (s : String) : Transaction :=
  Transaction.mk t.order_id t.user_id (some username) t.invoice_id
    t.buy_amount amount s t.created_at

/- INSERT INTO transactions ...; `order_id` is the primary key, so the
   insert raises sqlite3.IntegrityError and leaves the table unchanged when
   a row with the same order_id exists (modelled as `none`). -/
def add_transaction (db : Ledger) (oid : String) (uid : Nat) (inv : Option String)
    (amt : Nat) (status : String) (now : Nat) : Option Ledger :=
  if db.any (fun t => t.order_id == oid) then none
  else some (db ++ [Transaction.mk oid uid none inv amt 0 status now])

/- SELECT * FROM transactions WHERE order_id = ? with fetchone: first row in
   rowid order.  The handler passes data.get("order_id"), which may be None;
   SQL `=` never matches NULL, so the None case finds nothing. -/
def get_transaction_by_order_id (db : Ledger) (oid : Option String) : Option Transaction :=
  match oid with
  | none => none
  | some o => db.find? (fun t => t.order_id == o)

def laterOf (acc : Option Transaction) (t : Transaction) : Option Transaction :=
  match acc with
  | none => some t
  | some b => if b.created_at < t.created_at then some t else some b

/- SELECT * WHERE user_id = ? AND status = 'paid' ORDER BY created_at DESC
   LIMIT 1: the row of the user in status paid with the greatest
   created_at (ties resolved to the earlier row, as SQLite ordering on ties
   is unspecified). -/
def get_latest_paid_transaction (db : Ledger) (uid : Nat) : Option Transaction :=
  (db.filter (fun t => t.user_id == uid && t.status == "paid")).foldl laterOf none

def update_transaction_status (db : Ledger) (oid : String) (status : String) : Ledger :=
  db.map (fun t => if t.order_id == oid then setStatusField t status else t)

def update_transaction_fulfillment (db : Ledger) (oid : String) (username : String)
    (amount : Nat) (newStatus : String) : Ledger :=
  db.map (fun t => if t.order_id == oid then setFulfillmentFields t username amount newStatus else t)

/- Stubbed risk management in the source: always 1,000,000. -/
def calculate_available_stars_to_buy : Nat := 1000000

/- ------------------------------------------------------------------ -/
/- The IPN webhook handler. -/

structure IpnData where
  payment_status : Option String
  order_id : Option String
deriving DecidableEq, Repr

/- An inbound POST: optional x-nowpayments-sig header, the raw body bytes,
   and the outcome of request.get_json() on that body (none when the body
   is not parseable JSON, in which case get_json raises). -/
structure IpnRequest where
  x_nowpayments_sig : Option String
  body : List Nat
  json : Option IpnData
deriving DecidableEq, Repr

structure IpnResult where
  statusCode : Nat
  ledger : Ledger
  notifications : List (Nat × String)
deriving DecidableEq, Repr

def send_payment_notification (uid : Nat) : Nat × String :=
  (uid, "✅ Payment confirmed!\n\nTo deliver your Stars, please reply with your Telegram @username.")

/- The /nowpayments-ipn Flask view.  abort(400) on a missing header happens
   before the try block and yields a 400 response.  Inside the try block,
   flask.abort raises a werkzeug HTTPException, which is a subclass of
   Exception; the blanket `except Exception` therefore catches the
   abort(401) raised on a signature mismatch, as well as the BadRequest
   raised by request.get_json() on an unparseable body, and answers both
   with abort(500).  asyncio.run(send_payment_notification) is modelled as
   succeeding. -/
def nowpayments_ipn (secretKey : String) (req : IpnRequest) (db : Ledger) : IpnResult :=
  match req.x_nowpayments_sig with
  | none => IpnResult.mk 400 db []
  | some hdr =>
    if hmacSha512Hex (utf8Bytes secretKey) req.body ≠ hdr then IpnResult.mk 500 db []
    else
      match req.json with
      | none => IpnResult.mk 500 db []
      | some data =>
        if data.payment_status == some "finished" then
          match get_transaction_by_order_id db data.order_id with
          | some transaction =>
            if transaction.status == "pending" then
              IpnResult.mk 200 (update_transaction_status db transaction.order_id "paid")
                [send_payment_notification transaction.user_id]
            else IpnResult.mk 200 db []
          | none => IpnResult.mk 200 db []
        else IpnResult.mk 200 db []

/- ------------------------------------------------------------------ -/
/- The fulfillment trigger (text-message handler). -/

inductive BotEvent where
  | dbSetStatus (oid : String) (status : String)
  | dbSetFulfillment (oid : String) (username : String) (amount : Nat) (status : String)
  | driverCall (amount : Nat) (recipient : String)
  | reply (text : String)
deriving DecidableEq, Repr

def isDriverCall : BotEvent → Bool
  | BotEvent.driverCall _ _ => true
  | _ => false

/- Python str.lstrip("@"): drop every leading "@" character. -/
def lstripAt (s : String) : String := String.mk (s.data.dropWhile (fun c => c == '@'))

/- get_recipient_username: handles a text message from userId.  The outcome
   of purchase_stars_on_fragments (opaque browser automation) is the
   driverOk oracle; the driverCall event records its invocation in program
   order, between the processing status write and the final bookkeeping. -/
def get_recipient_username (db : Ledger) (userId : Nat) (msgText : String) (driverOk : Bool) :
    Ledger × List BotEvent :=
  match get_latest_paid_transaction db userId with
  | none => (db, [])
  | some transaction =>
    let recipient := lstripAt msgText
    let oid := transaction.order_id
    let db1 := update_transaction_status db oid "processing"
    let stars_to_buy := min transaction.buy_amount calculate_available_stars_to_buy
    if driverOk then
      let new_status := if stars_to_buy < transaction.buy_amount then "partially_completed" else "completed"
      let doneMsg :=
        if stars_to_buy < transaction.buy_amount then
          "✅ Your order has been partially fulfilled with " ++ toString stars_to_buy ++
            " Stars. Please contact support for the remaining amount, providing Order ID: " ++ oid
        else
          "✅ Success! Your order for " ++ toString stars_to_buy ++
            " Stars is complete. Thank you for your business!"
      (update_transaction_fulfillment db1 oid recipient stars_to_buy new_status,
        [BotEvent.dbSetStatus oid "processing",
         BotEvent.reply "Thank you. Processing your order. This may take a moment...",
         BotEvent.driverCall stars_to_buy recipient,
         BotEvent.reply doneMsg,
         BotEvent.dbSetFulfillment oid recipient stars_to_buy new_status])
    else
      (update_transaction_status db1 oid "failed",
        [BotEvent.dbSetStatus oid "processing",
         BotEvent.reply "Thank you. Processing your order. This may take a moment...",
         BotEvent.driverCall stars_to_buy recipient,
         BotEvent.dbSetStatus oid "failed",
         BotEvent.reply ("❌ An error occurred while processing your order. Please contact support and provide this Order ID: " ++ oid)])

/- ------------------------------------------------------------------ -/
/- Well-formedness: order_id is a primary key. -/

def WF (db : Ledger) : Prop := (db.map (fun t => t.order_id)).Nodup

def fulfilledLeBuy (db : Ledger) : Prop := ∀ t ∈ db, t.fulfilled_amount ≤ t.buy_amount

/- ------------------------------------------------------------------ -/
/- Helper lemmas. -/

theorem sha512Compress_size (H : Array Nat) (b : List Nat) : (sha512Compress H b).size = 8 := by
  simp [sha512Compress]

theorem sha512Bytes_length (msg : List Nat) : (sha512Bytes msg).length = 64 := by
  have hsize : ∀ (bs : List (List Nat)) (H : Array Nat), H.size = 8 →
      (bs.foldl sha512Compress H).size = 8 := by
    intro bs
    induction bs with
    | nil => intro H h; exact h
    | cons b bs ih => intro H _; exact ih _ (sha512Compress_size H b)
  have hlen : ∀ ws : List Nat,
      (ws.foldr (fun wd acc => (List.range 8).map (fun i => (wd >>> (8 * (7 - i))) % 256) ++ acc)
        []).length = 8 * ws.length := by
    intro ws
    induction ws with
    | nil => rfl
    | cons w ws ih => simp [List.foldr, ih, Nat.mul_succ]; omega
  rw [sha512Bytes]
  rw [hlen]
  rw [Array.length_toList, hsize _ _ (by decide)]

theorem bytesToHex_length (bs : List Nat) : (bytesToHex bs).length = 2 * bs.length := by
  rw [bytesToHex]
  have : ∀ l : List Nat,
      (l.foldr (fun b acc => hexChar (b / 16) :: hexChar (b % 16) :: acc) []).length = 2 * l.length := by
    intro l
    induction l with
    | nil => rfl
    | cons b l ih => simp [List.foldr, ih]; omega
  simp [String.length, this]

theorem hmacSha512Hex_length (key msg : List Nat) : (hmacSha512Hex key msg).length = 128 := by
  rw [hmacSha512Hex, bytesToHex_length, sha512Bytes_length]

theorem laterOf_foldl_mem : ∀ (l : List Transaction) (acc : Option Transaction) (t : Transaction),
    l.foldl laterOf acc = some t → t ∈ l ∨ acc = some t := by
  intro l
  induction l with
  | nil => intro acc t h; exact Or.inr h
  | cons x xs ih =>
    intro acc t h
    rcases ih (laterOf acc x) t h with hmem | hacc
    · exact Or.inl (List.mem_cons_of_mem _ hmem)
    · cases acc with
      | none =>
        rw [laterOf] at hacc
        exact Or.inl (by rw [Option.some.injEq] at hacc; rw [← hacc]; exact List.mem_cons_self _ _)
      | some b =>
        rw [laterOf] at hacc
        by_cases hlt : b.created_at < x.created_at
        · rw [if_pos hlt, Option.some.injEq] at hacc
          exact Or.inl (by rw [← hacc]; exact List.mem_cons_self _ _)
        · rw [if_neg hlt] at hacc
          exact Or.inr hacc

theorem get_latest_paid_spec (db : Ledger) (uid : Nat) (t : Transaction)
    (h : get_latest_paid_transaction db uid = some t) :
    t ∈ db ∧ t.user_id = uid ∧ t.status = "paid" := by
  rw [get_latest_paid_transaction] at h
  rcases laterOf_foldl_mem _ none t h with hmem | habs
  · have := List.mem_filter.mp hmem
    refine ⟨this.1, ?_, ?_⟩
    · have hb := this.2
      simp only [Bool.and_eq_true, beq_iff_eq] at hb
      exact hb.1
    · have hb := this.2
      simp only [Bool.and_eq_true, beq_iff_eq] at hb
      exact hb.2
  · cases habs

theorem find?_key_of_nodup (db : Ledger) (t : Transaction) (hwf : WF db) (ht : t ∈ db) :
    db.find? (fun r => r.order_id == t.order_id) = some t := by
  induction db with
  | nil => cases ht
  | cons x xs ih =>
    rw [WF, List.map_cons, List.nodup_cons] at hwf
    rcases List.mem_cons.mp ht with rfl | hmem
    · exact List.find?_cons_of_pos _ (by simp)
    · have hne : (x.order_id == t.order_id) = false := by
        rw [beq_eq_false_iff_ne]
        intro he
        exact hwf.1 (by rw [he]; exact List.mem_map_of_mem _ hmem)
      rw [List.find?_cons_of_neg _ (by simp [hne]), ih hwf.2 hmem]

theorem find?_map_key_preserving (f : Transaction → Transaction)
    (hf : ∀ r, (f r).order_id = r.order_id) (db : Ledger) (oid : String) :
    (db.map f).find? (fun r => r.order_id == oid) =
      (db.find? (fun r => r.order_id == oid)).map f := by
  rw [List.find?_map]
  have hp : ((fun r => r.order_id == oid) ∘ f) = (fun r => r.order_id == oid) := by
    funext r
    simp [Function.comp, hf r]
  rw [hp]

theorem find?_update_transaction_status (db : Ledger) (oid oid' s : String) :
    (update_transaction_status db oid' s).find? (fun r => r.order_id == oid) =
      (db.find? (fun r => r.order_id == oid)).map
        (fun r => if r.order_id == oid' then setStatusField r s else r) := by
  rw [update_transaction_status]
  exact find?_map_key_preserving _ (fun r => by cases h : r.order_id == oid' <;> simp [h, setStatusField]) db oid

theorem find?_update_transaction_fulfillment (db : Ledger) (oid oid' u : String) (a : Nat) (s : String) :
    (update_transaction_fulfillment db oid' u a s).find? (fun r => r.order_id == oid) =
      (db.find? (fun r => r.order_id == oid)).map
        (fun r => if r.order_id == oid' then setFulfillmentFields r u a s else r) := by
  rw [update_transaction_fulfillment]
  exact find?_map_key_preserving _ (fun r => by cases h : r.order_id == oid' <;> simp [h, setFulfillmentFields]) db oid

theorem update_status_after_status (db : Ledger) (oid s1 s2 : String) :
    update_transaction_status (update_transaction_status db oid s1) oid s2 =
      update_transaction_status db oid s2 := by
  simp only [update_transaction_status, List.map_map]
  have : ((fun t => if t.order_id == oid then setStatusField t s2 else t) ∘
      (fun t => if t.order_id == oid then setStatusField t s1 else t)) =
      (fun t => if t.order_id == oid then setStatusField t s2 else t) := by
    funext r
    cases h : r.order_id == oid <;> simp [Function.comp, h, setStatusField]
  rw [this]

theorem update_fulfillment_after_status (db : Ledger) (oid s u : String) (a : Nat) (ns : String) :
    update_transaction_fulfillment (update_transaction_status db oid s) oid u a ns =
      update_transaction_fulfillment db oid u a ns := by
  simp only [update_transaction_status, update_transaction_fulfillment, List.map_map]
  have : ((fun t => if t.order_id == oid then setFulfillmentFields t u a ns else t) ∘
      (fun t => if t.order_id == oid then setStatusField t s else t)) =
      (fun t => if t.order_id == oid then setFulfillmentFields t u a ns else t) := by
    funext r
    cases h : r.order_id == oid <;> simp [Function.comp, h, setStatusField, setFulfillmentFields]
  rw [this]

theorem fulfilledLeBuy_update_status (db : Ledger) (oid s : String) (h : fulfilledLeBuy db) :
    fulfilledLeBuy (update_transaction_status db oid s) := by
  intro r' hr'
  rw [update_transaction_status] at hr'
  rcases List.mem_map.mp hr' with ⟨r, hr, rfl⟩
  cases hm : r.order_id == oid <;> simp [hm, setStatusField] <;> exact h r hr

/- ------------------------------------------------------------------ -/
/- Claim theorems. -/

/-- C1: the IPN webhook handler mutates the ledger, and sends any user
notification, only when the provided x-nowpayments-sig header value is
byte-for-byte equal to the lowercase hexadecimal HMAC-SHA512 of the raw
request body under the shared IPN secret key; for every request whose
signature header is absent or differs from that digest, no ledger row is
created or modified and no notification is sent. -/
theorem ipn_no_mutation_without_valid_signature (secret : String) (req : IpnRequest) (db : Ledger)
    (h : req.x_nowpayments_sig = none ∨
      ∃ s, req.x_nowpayments_sig = some s ∧ s ≠ hmacSha512Hex (utf8Bytes secret) req.body) :
    (nowpayments_ipn secret req db).ledger = db ∧
      (nowpayments_ipn secret req db).notifications = [] := by
  cases hsig : req.x_nowpayments_sig with
  | none => simp [nowpayments_ipn, hsig]
  | some s0 =>
    rcases h with h | ⟨s, hs, hne⟩
    · rw [hsig] at h
      exact absurd h (by simp)
    · rw [hsig, Option.some.injEq] at hs
      have hne' : hmacSha512Hex (utf8Bytes secret) req.body ≠ s0 := fun he => hne (by rw [← hs]; exact he.symm)
      simp [nowpayments_ipn, hsig, hne']

theorem ipn_no_mutation_without_valid_signature_witness :
    (nowpayments_ipn "k" (IpnRequest.mk (some "bad") [1, 2, 3] none) []).ledger = [] ∧
      (nowpayments_ipn "k" (IpnRequest.mk (some "bad") [1, 2, 3] none) []).notifications = [] :=
  ipn_no_mutation_without_valid_signature "k" (IpnRequest.mk (some "bad") [1, 2, 3] none) []
    (Or.inr ⟨"bad", rfl, fun he => by
      have h128 := hmacSha512Hex_length (utf8Bytes "k") [1, 2, 3]
      rw [← he] at h128
      exact absurd h128 (by decide)⟩)

/-- C7: the claim says the endpoint answers 400 on a missing header or
unparseable body, 401 on a signature mismatch and 200 otherwise.  The code
answers 400 on a missing header, but the abort(401) raised on a mismatch
and the BadRequest raised by get_json() on an unparseable body are both
HTTPExceptions, hence Exceptions, so the surrounding `except Exception`
catches them and answers 500 in both cases: the code contradicts the plain
intent of its own abort(401) call.  This theorem evaluates the handler at
the failing inputs. -/
theorem ipn_mismatch_and_parse_failure_return_500 :
    (nowpayments_ipn "secret" (IpnRequest.mk none [] none) []).statusCode = 400 ∧
    (nowpayments_ipn "secret" (IpnRequest.mk (some "deadbeef") [] none) []).statusCode = 500 ∧
    (nowpayments_ipn "secret"
      (IpnRequest.mk (some (hmacSha512Hex (utf8Bytes "secret") [])) [] none) []).statusCode = 500 := by
  refine ⟨rfl, ?_, ?_⟩
  · have hne : hmacSha512Hex (utf8Bytes "secret") [] ≠ "deadbeef" := fun he => by
      have h128 := hmacSha512Hex_length (utf8Bytes "secret") []
      rw [he] at h128
      exact absurd h128 (by decide)
    simp [nowpayments_ipn, hne]
  · simp [nowpayments_ipn]

/-- C9: the ledger create operation inserts a new row with the given
order_id, user_id, invoice_id and buy_amount, with status pending and
fulfilled_amount 0, and fails leaving the table unchanged when a row with
the same order_id already exists. -/
theorem add_transaction_inserts_pending_or_fails (db : Ledger) (oid : String) (uid : Nat)
    (inv : Option String) (amt : Nat) (now : Nat) :
    ((∀ t ∈ db, t.order_id ≠ oid) →
      add_transaction db oid uid inv amt "pending" now =
        some (db ++ [Transaction.mk oid uid none inv amt 0 "pending" now])) ∧
    ((∃ t ∈ db, t.order_id = oid) → add_transaction db oid uid inv amt "pending" now = none) := by
  constructor
  · intro hno
    rw [add_transaction, if_neg]
    simp only [List.any_eq_true, beq_iff_eq, not_exists]
    intro t
    intro hcon
    exact hno t hcon.1 hcon.2
  · intro hyes
    rw [add_transaction, if_pos]
    simp only [List.any_eq_true, beq_iff_eq]
    exact hyes

theorem add_transaction_inserts_pending_or_fails_witness :
    add_transaction [Transaction.mk "o1" 7 none none 100 0 "pending" 0] "o2" 8 (some "inv") 50 "pending" 1 =
      some [Transaction.mk "o1" 7 none none 100 0 "pending" 0,
        Transaction.mk "o2" 8 none (some "inv") 50 0 "pending" 1] ∧
    add_transaction [Transaction.mk "o1" 7 none none 100 0 "pending" 0] "o1" 8 (some "inv") 50 "pending" 1 =
      none :=
  ⟨(add_transaction_inserts_pending_or_fails
      [Transaction.mk "o1" 7 none none 100 0 "pending" 0] "o2" 8 (some "inv") 50 1).1 (by decide),
   (add_transaction_inserts_pending_or_fails
      [Transaction.mk "o1" 7 none none 100 0 "pending" 0] "o1" 8 (some "inv") 50 1).2
      ⟨Transaction.mk "o1" 7 none none 100 0 "pending" 0, by decide, rfl⟩⟩

/-- C2: for every validly signed IPN notification whose payment_status is
finished and whose order_id matches a ledger row currently in status
pending, the handler sets that row's status to paid and sends the buying
user exactly one prompt asking for their recipient handle. -/
theorem ipn_finished_pending_marks_paid_and_prompts (secret : String) (req : IpnRequest)
    (db : Ledger) (data : IpnData) (t : Transaction)
    (hsig : req.x_nowpayments_sig = some (hmacSha512Hex (utf8Bytes secret) req.body))
    (hjson : req.json = some data)
    (hfin : data.payment_status = some "finished")
    (hfind : get_transaction_by_order_id db data.order_id = some t)
    (hpend : t.status = "pending") :
    nowpayments_ipn secret req db =
      IpnResult.mk 200 (update_transaction_status db t.order_id "paid")
        [send_payment_notification t.user_id] ∧
    get_transaction_by_order_id (nowpayments_ipn secret req db).ledger data.order_id =
      some (setStatusField t "paid") := by
  have hmain : nowpayments_ipn secret req db =
      IpnResult.mk 200 (update_transaction_status db t.order_id "paid")
        [send_payment_notification t.user_id] := by
    simp [nowpayments_ipn, hsig, hjson, hfin, hfind, hpend]
  refine ⟨hmain, ?_⟩
  rw [hmain]
  cases ho : data.order_id with
  | none =>
    rw [ho] at hfind
    simp [get_transaction_by_order_id] at hfind
  | some o =>
    rw [ho] at hfind
    simp only [get_transaction_by_order_id] at hfind ⊢
    rw [find?_update_transaction_status, hfind]
    simp

theorem ipn_finished_pending_marks_paid_and_prompts_witness :
    nowpayments_ipn "k"
        (IpnRequest.mk (some (hmacSha512Hex (utf8Bytes "k") [10]))  [10]
          (some (IpnData.mk (some "finished") (some "o1"))))
        [Transaction.mk "o1" 7 none none 100 0 "pending" 0] =
      IpnResult.mk 200
        (update_transaction_status [Transaction.mk "o1" 7 none none 100 0 "pending" 0] "o1" "paid")
        [send_payment_notification 7] :=
  (ipn_finished_pending_marks_paid_and_prompts "k"
    (IpnRequest.mk (some (hmacSha512Hex (utf8Bytes "k") [10])) [10]
      (some (IpnData.mk (some "finished") (some "o1"))))
    [Transaction.mk "o1" 7 none none 100 0 "pending" 0]
    (IpnData.mk (some "finished") (some "o1"))
    (Transaction.mk "o1" 7 none none 100 0 "pending" 0)
    rfl rfl rfl rfl rfl).1

/-- C3: processing a validly signed IPN notification is idempotent through
the status guard: when the payment_status is not finished, or the order_id
matches no ledger row, or the matched row is not in status pending, the
handler leaves the ledger unchanged and sends no notification; in
particular re-delivering the same finished notification after the first
delivery marked the order paid is a no-op. -/
theorem ipn_idempotent_status_guard (secret : String) (req : IpnRequest) (db : Ledger)
    (data : IpnData)
    (hsig : req.x_nowpayments_sig = some (hmacSha512Hex (utf8Bytes secret) req.body))
    (hjson : req.json = some data) :
    (data.payment_status ≠ some "finished" →
      nowpayments_ipn secret req db = IpnResult.mk 200 db []) ∧
    (get_transaction_by_order_id db data.order_id = none →
      nowpayments_ipn secret req db = IpnResult.mk 200 db []) ∧
    (∀ t, get_transaction_by_order_id db data.order_id = some t → t.status ≠ "pending" →
      nowpayments_ipn secret req db = IpnResult.mk 200 db []) ∧
    (∀ t, get_transaction_by_order_id db data.order_id = some t → t.status = "pending" →
      data.payment_status = some "finished" →
      nowpayments_ipn secret req ((nowpayments_ipn secret req db).ledger) =
        IpnResult.mk 200 ((nowpayments_ipn secret req db).ledger) []) := by
  refine ⟨?_, ?_, ?_, ?_⟩
  · intro hne
    simp [nowpayments_ipn, hsig, hjson, hne]
  · intro hnone
    by_cases hfin : data.payment_status = some "finished"
    · simp [nowpayments_ipn, hsig, hjson, hfin, hnone]
    · simp [nowpayments_ipn, hsig, hjson, hfin]
  · intro t hfind hnp
    by_cases hfin : data.payment_status = some "finished"
    · simp [nowpayments_ipn, hsig, hjson, hfin, hfind, hnp]
    · simp [nowpayments_ipn, hsig, hjson, hfin]
  · intro t hfind hpend hfin
    have hmain : nowpayments_ipn secret req db =
        IpnResult.mk 200 (update_transaction_status db t.order_id "paid")
          [send_payment_notification t.user_id] := by
      simp [nowpayments_ipn, hsig, hjson, hfin, hfind, hpend]
    rw [hmain]
    cases ho : data.order_id with
    | none =>
      rw [ho] at hfind
      simp [get_transaction_by_order_id] at hfind
    | some o =>
      rw [ho] at hfind
      simp only [get_transaction_by_order_id] at hfind
      have hfind2 : get_transaction_by_order_id
          (update_transaction_status db t.order_id "paid") (some o) =
          some (setStatusField t "paid") := by
        simp only [get_transaction_by_order_id]
        rw [find?_update_transaction_status, hfind]
        simp
      simp [nowpayments_ipn, hsig, hjson, hfin, ho, hfind2, setStatusField]

theorem ipn_idempotent_status_guard_witness :
    nowpayments_ipn "k"
        (IpnRequest.mk (some (hmacSha512Hex (utf8Bytes "k") [10])) [10]
          (some (IpnData.mk (some "finished") (some "o1"))))
        [Transaction.mk "o1" 7 none none 100 0 "paid" 0] =
      IpnResult.mk 200 [Transaction.mk "o1" 7 none none 100 0 "paid" 0] [] :=
  (ipn_idempotent_status_guard "k"
    (IpnRequest.mk (some (hmacSha512Hex (utf8Bytes "k") [10])) [10]
      (some (IpnData.mk (some "finished") (some "o1"))))
    [Transaction.mk "o1" 7 none none 100 0 "paid" 0]
    (IpnData.mk (some "finished") (some "o1")) rfl rfl).2.2.1
    (Transaction.mk "o1" 7 none none 100 0 "paid" 0) rfl (by decide)

/- Shared computation: the row of the fulfilled order after a successful
   driver run. -/
theorem success_row_lookup (db : Ledger) (uid : Nat) (text : String) (t : Transaction)
    (hwf : WF db) (h : get_latest_paid_transaction db uid = some t) :
    get_transaction_by_order_id (get_recipient_username db uid text true).1 (some t.order_id) =
      some (setFulfillmentFields t (lstripAt text)
        (min t.buy_amount calculate_available_stars_to_buy)
        (if min t.buy_amount calculate_available_stars_to_buy < t.buy_amount then
          "partially_completed" else "completed")) := by
  have hmem := (get_latest_paid_spec db uid t h).1
  have hledger : (get_recipient_username db uid text true).1 =
      update_transaction_fulfillment db t.order_id (lstripAt text)
        (min t.buy_amount calculate_available_stars_to_buy)
        (if min t.buy_amount calculate_available_stars_to_buy < t.buy_amount then
          "partially_completed" else "completed") := by
    simp [get_recipient_username, h]
    rw [update_fulfillment_after_status]
  rw [hledger]
  simp only [get_transaction_by_order_id]
  rw [find?_update_transaction_fulfillment, find?_key_of_nodup db t hwf hmem]
  simp

/-- C4: when a user with an outstanding paid order sends a text message,
the fulfillment driver is invoked with amount
min(buy_amount, available_supply); on driver success the order's
recipient_username is set to the supplied handle (leading @ stripped) and
fulfilled_amount to the delivered amount, with status partially_completed
when the delivered amount is less than buy_amount and completed
otherwise. -/
theorem fulfillment_success_records_min_supply (db : Ledger) (uid : Nat) (text : String)
    (t : Transaction) (hwf : WF db) (h : get_latest_paid_transaction db uid = some t) :
    BotEvent.driverCall (min t.buy_amount calculate_available_stars_to_buy) (lstripAt text) ∈
      (get_recipient_username db uid text true).2 ∧
    get_transaction_by_order_id (get_recipient_username db uid text true).1 (some t.order_id) =
      some (setFulfillmentFields t (lstripAt text)
        (min t.buy_amount calculate_available_stars_to_buy)
        (if min t.buy_amount calculate_available_stars_to_buy < t.buy_amount then
          "partially_completed" else "completed")) := by
  refine ⟨?_, success_row_lookup db uid text t hwf h⟩
  simp [get_recipient_username, h]

theorem fulfillment_success_records_min_supply_witness :
    get_transaction_by_order_id
        (get_recipient_username [Transaction.mk "o1" 7 none none 100 0 "paid" 0] 7 "@alice" true).1
        (some "o1") =
      some (Transaction.mk "o1" 7 (some "alice") none 100 100 "completed" 0) :=
  (fulfillment_success_records_min_supply [Transaction.mk "o1" 7 none none 100 0 "paid" 0]
    7 "@alice" (Transaction.mk "o1" 7 none none 100 0 "paid" 0) (by unfold WF; decide) rfl).2

/-- C6: when the fulfillment driver fails for an order being processed,
only that order's status field changes, to failed: every other field of the
row and every other row are untouched, nothing is recorded as fulfillment,
and the driver is invoked exactly once (no retry). -/
theorem driver_failure_only_sets_status_failed (db : Ledger) (uid : Nat) (text : String)
    (t : Transaction) (h : get_latest_paid_transaction db uid = some t) :
    (get_recipient_username db uid text false).1 =
      db.map (fun r => if r.order_id == t.order_id then setStatusField r "failed" else r) ∧
    ((get_recipient_username db uid text false).2.filter isDriverCall).length = 1 ∧
    (∀ e ∈ (get_recipient_username db uid text false).2,
      ∀ oid u a s, e ≠ BotEvent.dbSetFulfillment oid u a s) := by
  refine ⟨?_, ?_, ?_⟩
  · simp [get_recipient_username, h]
    rw [update_status_after_status, update_transaction_status]
    simp
  · simp [get_recipient_username, h, isDriverCall]
  · intro e he oid u a s
    simp [get_recipient_username, h] at he
    rcases he with rfl | rfl | rfl | rfl | rfl <;> simp

theorem driver_failure_only_sets_status_failed_witness :
    (((get_recipient_username [Transaction.mk "o1" 7 none none 100 0 "paid" 0] 7 "bob" false).2).filter
      isDriverCall).length = 1 :=
  (driver_failure_only_sets_status_failed [Transaction.mk "o1" 7 none none 100 0 "paid" 0]
    7 "bob" (Transaction.mk "o1" 7 none none 100 0 "paid" 0) rfl).2.1

/-- C8: whenever the fulfillment driver is invoked for an order, the order's
status has already been set to processing beforehand: in the event trace of
the message handler the processing status write strictly precedes the
driver call (it is the first event, the driver call the third), for every
driver outcome. -/
theorem driver_call_preceded_by_processing_status (db : Ledger) (uid : Nat) (text : String)
    (driverOk : Bool) (t : Transaction) (h : get_latest_paid_transaction db uid = some t) :
    ((get_recipient_username db uid text driverOk).2[0]? =
        some (BotEvent.dbSetStatus t.order_id "processing") ∧
      (get_recipient_username db uid text driverOk).2[2]? =
        some (BotEvent.driverCall (min t.buy_amount calculate_available_stars_to_buy)
          (lstripAt text))) ∧
    (∀ (j a : Nat) (r : String), (get_recipient_username db uid text driverOk).2[j]? =
        some (BotEvent.driverCall a r) →
      ∃ i : Nat, i < j ∧ (get_recipient_username db uid text driverOk).2[i]? =
        some (BotEvent.dbSetStatus t.order_id "processing")) := by
  cases driverOk with
  | true =>
    refine ⟨⟨by simp [get_recipient_username, h], by simp [get_recipient_username, h]⟩, ?_⟩
    intro j a r hj
    rcases j with _ | _ | _ | _ | _ | j
    · simp [get_recipient_username, h] at hj
    · simp [get_recipient_username, h] at hj
    · refine ⟨0, by omega, ?_⟩
      simp [get_recipient_username, h]
    · simp [get_recipient_username, h] at hj
    · simp [get_recipient_username, h] at hj
    · simp [get_recipient_username, h] at hj
  | false =>
    refine ⟨⟨by simp [get_recipient_username, h], by simp [get_recipient_username, h]⟩, ?_⟩
    intro j a r hj
    rcases j with _ | _ | _ | _ | _ | j
    · simp [get_recipient_username, h] at hj
    · simp [get_recipient_username, h] at hj
    · refine ⟨0, by omega, ?_⟩
      simp [get_recipient_username, h]
    · simp [get_recipient_username, h] at hj
    · simp [get_recipient_username, h] at hj
    · simp [get_recipient_username, h] at hj

theorem driver_call_preceded_by_processing_status_witness :
    (get_recipient_username [Transaction.mk "o1" 7 none none 100 0 "paid" 0] 7 "alice" true).2[0]? =
      some (BotEvent.dbSetStatus "o1" "processing") :=
  (driver_call_preceded_by_processing_status [Transaction.mk "o1" 7 none none 100 0 "paid" 0]
    7 "alice" true (Transaction.mk "o1" 7 none none 100 0 "paid" 0) rfl).1.1

/-- C10: every text message interpreted as a recipient handle has all its
leading @ characters stripped before the handle is passed to the
fulfillment driver and recorded as the order's recipient_username;
characters after the first non-@ character, interior @ included, are
kept. -/
theorem leading_at_signs_stripped_from_handle (db : Ledger) (uid : Nat) (text : String)
    (t : Transaction) (hwf : WF db) (h : get_latest_paid_transaction db uid = some t) :
    lstripAt text = String.mk (text.data.dropWhile (fun c => c == '@')) ∧
    (∀ driverOk, BotEvent.driverCall (min t.buy_amount calculate_available_stars_to_buy)
      (lstripAt text) ∈ (get_recipient_username db uid text driverOk).2) ∧
    Option.map (fun r => r.recipient_username)
        (get_transaction_by_order_id (get_recipient_username db uid text true).1
          (some t.order_id)) =
      some (some (lstripAt text)) := by
  refine ⟨rfl, ?_, ?_⟩
  · intro driverOk
    cases driverOk <;> simp [get_recipient_username, h]
  · rw [success_row_lookup db uid text t hwf h]
    simp [setFulfillmentFields]

theorem leading_at_signs_stripped_from_handle_witness :
    Option.map (fun r => r.recipient_username)
        (get_transaction_by_order_id
          (get_recipient_username [Transaction.mk "o1" 7 none none 100 0 "paid" 0] 7 "@@al@ice" true).1
          (some "o1")) =
      some (some "al@ice") :=
  (leading_at_signs_stripped_from_handle [Transaction.mk "o1" 7 none none 100 0 "paid" 0]
    7 "@@al@ice" (Transaction.mk "o1" 7 none none 100 0 "paid" 0) (by unfold WF; decide) rfl).2.2

/- The webhook either leaves the ledger alone or performs the single
   pending-to-paid status update. -/
theorem ipn_ledger_cases (secret : String) (req : IpnRequest) (db : Ledger) :
    (nowpayments_ipn secret req db).ledger = db ∨
      ∃ oid, (nowpayments_ipn secret req db).ledger = update_transaction_status db oid "paid" := by
  cases hsig : req.x_nowpayments_sig with
  | none => left; simp [nowpayments_ipn, hsig]
  | some hdr =>
    by_cases hs : hmacSha512Hex (utf8Bytes secret) req.body ≠ hdr
    · left; simp [nowpayments_ipn, hsig, hs]
    · cases hjs : req.json with
      | none => left; simp [nowpayments_ipn, hsig, hs, hjs]
      | some data =>
        by_cases hfin : data.payment_status = some "finished"
        · cases hfind : get_transaction_by_order_id db data.order_id with
          | none => left; simp [nowpayments_ipn, hsig, hs, hjs, hfin, hfind]
          | some tr =>
            by_cases hp : tr.status = "pending"
            · right
              exact ⟨tr.order_id, by simp [nowpayments_ipn, hsig, hs, hjs, hfin, hfind, hp]⟩
            · left; simp [nowpayments_ipn, hsig, hs, hjs, hfin, hfind, hp]
        · left; simp [nowpayments_ipn, hsig, hs, hjs, hfin]

/-- C5: fulfilled_amount never exceeds buy_amount after any ledger
operation: creation inserts the row with fulfilled_amount 0, status updates
leave every fulfilled_amount unchanged, the webhook handler and the message
handler preserve the invariant (the message handler on a primary-key
consistent ledger), and the amount recorded at fulfillment,
min(buy_amount, available supply), is at most buy_amount. -/
theorem fulfilled_amount_le_buy_amount_invariant :
    (∀ db oid uid inv amt now db', fulfilledLeBuy db →
      add_transaction db oid uid inv amt "pending" now = some db' →
      fulfilledLeBuy db' ∧ db' = db ++ [Transaction.mk oid uid none inv amt 0 "pending" now]) ∧
    (∀ db oid s, (update_transaction_status db oid s).map (fun t => t.fulfilled_amount) =
        db.map (fun t => t.fulfilled_amount) ∧
      (fulfilledLeBuy db → fulfilledLeBuy (update_transaction_status db oid s))) ∧
    (∀ secret req db, fulfilledLeBuy db → fulfilledLeBuy (nowpayments_ipn secret req db).ledger) ∧
    (∀ db uid text driverOk, WF db → fulfilledLeBuy db →
      fulfilledLeBuy (get_recipient_username db uid text driverOk).1) ∧
    (∀ t : Transaction, min t.buy_amount calculate_available_stars_to_buy ≤ t.buy_amount) := by
  refine ⟨?_, ?_, ?_, ?_, fun t => Nat.min_le_left _ _⟩
  · intro db oid uid inv amt now db' hfl hadd
    rw [add_transaction] at hadd
    by_cases hdup : db.any (fun t => t.order_id == oid) = true
    · rw [if_pos hdup] at hadd
      cases hadd
    · rw [if_neg hdup, Option.some.injEq] at hadd
      refine ⟨?_, hadd.symm⟩
      intro r hr
      rw [← hadd] at hr
      rcases List.mem_append.mp hr with hold | hnew
      · exact hfl r hold
      · rw [List.mem_singleton] at hnew
        rw [hnew]
        exact Nat.zero_le _
  · intro db oid s
    constructor
    · rw [update_transaction_status, List.map_map]
      have : ((fun t => t.fulfilled_amount) ∘
          (fun t => if t.order_id == oid then setStatusField t s else t)) =
          (fun t : Transaction => t.fulfilled_amount) := by
        funext r
        cases hm : r.order_id == oid <;> simp [Function.comp, hm, setStatusField]
      rw [this]
    · exact fulfilledLeBuy_update_status db oid s
  · intro secret req db hfl
    rcases ipn_ledger_cases secret req db with hcase | ⟨oid, hcase⟩
    · rw [hcase]; exact hfl
    · rw [hcase]; exact fulfilledLeBuy_update_status db oid "paid" hfl
  · intro db uid text driverOk hwf hfl
    cases h : get_latest_paid_transaction db uid with
    | none => simp [get_recipient_username, h]; exact hfl
    | some t =>
      have hmem := (get_latest_paid_spec db uid t h).1
      cases driverOk with
      | false =>
        have hledger : (get_recipient_username db uid text false).1 =
            update_transaction_status db t.order_id "failed" := by
          simp [get_recipient_username, h]
          rw [update_status_after_status]
        rw [hledger]
        exact fulfilledLeBuy_update_status db t.order_id "failed" hfl
      | true =>
        have hledger : (get_recipient_username db uid text true).1 =
            update_transaction_fulfillment db t.order_id (lstripAt text)
              (min t.buy_amount calculate_available_stars_to_buy)
              (if min t.buy_amount calculate_available_stars_to_buy < t.buy_amount then
                "partially_completed" else "completed") := by
          simp [get_recipient_username, h]
          rw [update_fulfillment_after_status]
        rw [hledger]
        intro r' hr'
        rw [update_transaction_fulfillment] at hr'
        rcases List.mem_map.mp hr' with ⟨r, hr, rfl⟩
        cases hm : r.order_id == t.order_id with
        | false => simp [hm]; exact hfl r hr
        | true =>
          have hkey : r.order_id = t.order_id := by simpa using hm
          have hrt : r = t := List.inj_on_of_nodup_map hwf hr hmem hkey
          rw [hrt]
          simp [setFulfillmentFields]

theorem fulfilled_amount_le_buy_amount_invariant_witness :
    fulfilledLeBuy
      (get_recipient_username [Transaction.mk "o1" 7 none none 100 0 "paid" 0] 7 "@alice" true).1 :=
  fulfilled_amount_le_buy_amount_invariant.2.2.2.1
    [Transaction.mk "o1" 7 none none 100 0 "paid" 0] 7 "@alice" true
    (by unfold WF; decide) (by unfold fulfilledLeBuy; decide)

end StarsTrader
